import Mathlib

/-!
Verification of the gateway connection/dispatch layer of the
ocr-diploma-scheduler repository.

The definitions below are a shallow embedding of the Python source files
`services/gateway/app/grpc_client.py` (service registry, load balancer,
channel pool, call executor) and `services/gateway/app/websocket.py`
(connection manager and message dispatcher).  Python dictionaries are
embedded as insertion-ordered association lists, machine state mutation as
explicit state passing, exceptions as explicit error results, and the
nondeterministic inputs of the event loop (random choice, the per-attempt
outcome of a backend call, inbound client events, generated uuid strings)
as explicit oracle parameters.
-/

/-- Embeds the dataclass `ServiceInstance` of grpc_client.py: one backend
endpoint with a health flag and an in-flight connection counter.  The
counter is a Python int, embedded as `Int` so that the non-negativity
claim is a statement, not a typing artifact. -/
structure ServiceInstance where
  host : String
  port : Nat
  is_healthy : Bool := true
  connections : Int := 0
deriving DecidableEq, Repr

/-- Embeds the mutable state of class `GRPCClient`: the registry
`self.services` (dict from logical service name to instance list), the
round-robin cursors `self._current_index`, and the key set of the channel
pool `self._channels` (the `Channel` objects themselves carry no state the
claims mention, so only the cached keys are kept). -/
structure GRPCClient where
  services : List (String × List ServiceInstance)
  currentIndex : List (String × Nat)
  channels : List String
deriving DecidableEq, Repr

/-- Python dict read `m[k]` / `m.get(k)`: first binding of the key in the
association list (keys are unique in every state the embedded code
builds). -/
def lookupA (k : String) : List (String × β) → Option β
  | [] => none
  | (k₂, v) :: rest => if k₂ = k then some v else lookupA k rest

/-- Python dict write `m[k] = f m[k]`: rewrite the first binding of the
key, leave the list unchanged when the key is absent. -/
def updateAssoc (k : String) (f : β → β) : List (String × β) → List (String × β)
  | [] => []
  | (k₂, v) :: rest =>
    if k₂ = k then (k₂, f v) :: rest else (k₂, v) :: updateAssoc k f rest

/-- Python `str.split(sep)` for a one-character separator, on the
character list: split at every occurrence, keeping empty segments. -/
def splitChar (c : Char) : List Char → List (List Char)
  | [] => [[]]
  | x :: rest =>
    match splitChar c rest with
    | [] => [[x]]
    | y :: ys => if x = c then [] :: y :: ys else (x :: y) :: ys

/-- Python `int(s)` on a decimal string: defined exactly on nonempty
all-digit strings (the forms the configured addresses use); `none` embeds
the ValueError. -/
def digitsToNat? (cs : List Char) : Option Nat :=
  if cs.isEmpty then none
  else if cs.all (fun ch => ch.isDigit) then
    some (cs.foldl (fun acc ch => acc * 10 + (ch.toNat - 48)) 0)
  else none

/-- The `host, port = service_addr.split(":")` / `int(port)` step of
`GRPCClient.initialize`; `none` embeds the ValueError raised on a
malformed address. -/
def parseAddr (addr : String) : Option (String × Nat) :=
  match splitChar ':' addr.toList with
  | [host, port] => (digitsToNat? port).map (fun p => (host.asString, p))
  | _ => none

/-- The `service_name = host.split("-")[0]` step of
`GRPCClient.initialize`. -/
def serviceNameOf (host : String) : String :=
  match splitChar '-' host.toList with
  | [] => host
  | x :: _ => x.asString

/-- One iteration of the loop body of `GRPCClient.initialize`: ensure the
service key exists (with a zero cursor) and append a fresh healthy
instance for the address.  The append is unconditional, exactly as in the
source. -/
def registerAddr (st : GRPCClient) (addr : String) : Option GRPCClient :=
  match parseAddr addr with
  | none => none
  | some (host, port) =>
    let name := serviceNameOf host
    let st₁ :=
      if (lookupA name st.services).isSome then st
      else { st with
               services := st.services ++ [(name, [])],
               currentIndex := st.currentIndex ++ [(name, 0)] }
    some { st₁ with
             services :=
               updateAssoc name
                 (fun l => l ++ [{ host := host, port := port : ServiceInstance }])
                 st₁.services }

/-- Embeds `GRPCClient.initialize`, folding the loop body over the
configured `settings.microservices` list; `none` embeds an exception
escaping the loop. -/
def initializeRegistry (st : GRPCClient) : List String → Option GRPCClient
  | [] => some st
  | addr :: rest =>
    match registerAddr st addr with
    | none => none
    | some st₂ => initializeRegistry st₂ rest

/-- Position, in the full instance list, of the k-th healthy instance:
this is how `healthy_instances[idx]`, an alias into `self.services[name]`,
is identified once lists are immutable. -/
def nthHealthyPos : List ServiceInstance → Nat → Option Nat
  | [], _ => none
  | i :: rest, k =>
    if i.is_healthy then
      match k with
      | 0 => some 0
      | k₂ + 1 => (nthHealthyPos rest k₂).map (· + 1)
    else (nthHealthyPos rest k).map (· + 1)

/-- Position (in the full instance list) and in-flight count of the first
healthy instance with the minimal in-flight count; embeds
`min(healthy_instances, key=lambda x: x.connections)`, whose `min` keeps
the first minimum in iteration order. -/
def minConnPos : List ServiceInstance → Option (Nat × Int)
  | [] => none
  | i :: rest =>
    let tail := (minConnPos rest).map (fun q => (q.1 + 1, q.2))
    if i.is_healthy then
      match tail with
      | some (p, m) =>
        if i.connections ≤ m then some (0, i.connections) else some (p, m)
      | none => some (0, i.connections)
    else tail

/-- Embeds `GRPCClient._get_next_instance`, returning the position of the
selected instance inside `services[name]` together with the updated state
(the round-robin branch advances the cursor).  `lb` is the string
`settings.load_balancer`; `randPick` is the oracle for `random.choice`
(an arbitrary index, reduced modulo the healthy count). -/
def getNextInstancePos (lb : String) (randPick : Nat) (st : GRPCClient)
    (name : String) : Option Nat × GRPCClient :=
  match lookupA name st.services with
  | none => (none, st)
  | some insts =>
    let healthy := insts.filter (fun i => i.is_healthy)
    if healthy.isEmpty then (none, st)
    else if lb = "round-robin" then
      let cur := (lookupA name st.currentIndex).getD 0
      (nthHealthyPos insts (cur % healthy.length),
       { st with currentIndex := updateAssoc name (· + 1) st.currentIndex })
    else if lb = "random" then
      (nthHealthyPos insts (randPick % healthy.length), st)
    else
      ((minConnPos insts).map (fun q => q.1), st)

/-- The instance list currently registered for a service name. -/
def instancesOf (st : GRPCClient) (name : String) : List ServiceInstance :=
  (lookupA name st.services).getD []

/-- Embeds `GRPCClient._get_next_instance` at the level of returned
values: the selected `ServiceInstance` (if any) and the updated state. -/
def _get_next_instance (lb : String) (randPick : Nat) (st : GRPCClient)
    (name : String) : Option ServiceInstance × GRPCClient :=
  match getNextInstancePos lb randPick st name with
  | (none, st₂) => (none, st₂)
  | (some p, st₂) => ((instancesOf st name).get? p, st₂)

/-- Iterated selection: `n` successive calls of `_get_next_instance`,
collecting the returned instances. -/
def selectN (lb : String) (randPick : Nat) (name : String) :
    Nat → GRPCClient → List (Option ServiceInstance)
  | 0, _ => []
  | n + 1, st =>
    match _get_next_instance lb randPick st name with
    | (x, st₂) => x :: selectN lb randPick name n st₂

/-- The pool key `f"{instance.host}:{instance.port}"` of get_channel. -/
def channelKey (i : ServiceInstance) : String :=
  i.host ++ ":" ++ toString i.port

/-- The `if key not in self._channels: self._channels[key] = Channel(...)`
step of `get_channel`; only the cached key matters to the claims. -/
def ensureChannel (channels : List String) (key : String) : List String :=
  if key ∈ channels then channels else channels ++ [key]

/-- Add `d` to the in-flight counter of the instance at position `p`;
embeds `instance.connections += 1` and `instance.connections -= 1` on the
aliased list element. -/
def addConnAt : List ServiceInstance → Nat → Int → List ServiceInstance
  | [], _, _ => []
  | i :: rest, 0, d => { i with connections := i.connections + d } :: rest
  | i :: rest, p + 1, d => i :: addConnAt rest p d

/-- Lift `addConnAt` to the client state for a given service name. -/
def addConn (st : GRPCClient) (name : String) (p : Nat) (d : Int) :
    GRPCClient :=
  { st with services := updateAssoc name (fun l => addConnAt l p d) st.services }

/-- Per-attempt behavior of the backend call performed by
`_execute_call` inside the channel context: it returns normally, raises a
`GRPCError`, raises an `asyncio.TimeoutError`, or raises some other
application-level exception. -/
inductive CallOutcome
  | ok
  | grpcErr
  | timeoutErr
  | otherErr
deriving DecidableEq, Repr

/-- The exceptions that can escape `call_service`, tagged with the attempt
that raised them so that "propagates the last observed error" is a
statement. -/
inductive CallError
  | noHealthy (name : String)
  | grpc (attempt : Nat)
  | timeout (attempt : Nat)
  | app (attempt : Nat)
  | generic
deriving DecidableEq, Repr

/-- Result of `call_service`: normal return or a raised error. -/
inductive CallResult
  | ok
  | err (e : CallError)
deriving DecidableEq, Repr

/-- How one iteration of the retry loop ended: normal return, a
`GRPCError` (the `continue` branch) or any other exception (the `break`
branch). -/
inductive StepRes
  | success
  | transient (e : CallError)
  | terminal (e : CallError)
deriving DecidableEq, Repr

/-- Result of one loop iteration: its classification, the state after the
iteration, and the intermediate states visited (after the in-flight
increment and after the guaranteed decrement). -/
structure AttemptOut where
  res : StepRes
  st : GRPCClient
  trace : List GRPCClient
deriving Repr

/-- One iteration of the `for attempt in range(retries + 1)` loop of
`call_service`: enter `get_channel` (select an instance under the lock and
increment its counter; raise if none), create/reuse the pooled channel,
run `_execute_call` with outcome `outcome`, and run the `finally` block
(decrement the counter).  A missing instance raises a plain `Exception`
before any increment. -/
def attemptStep (lb : String) (randPick : Nat) (outcome : CallOutcome)
    (name : String) (attempt : Nat) (st : GRPCClient) : AttemptOut :=
  match getNextInstancePos lb randPick st name with
  | (none, st₂) => ⟨.terminal (.noHealthy name), st₂, [st₂]⟩
  | (some p, st₂) =>
    let stAcq := addConn st₂ name p 1
    let key := channelKey (((instancesOf st₂ name).get? p).getD
      { host := "", port := 0 })
    let stCh := { stAcq with channels := ensureChannel stAcq.channels key }
    let stRel := addConn stCh name p (-1)
    match outcome with
    | .ok => ⟨.success, stRel, [stAcq, stRel]⟩
    | .grpcErr => ⟨.transient (.grpc attempt), stRel, [stAcq, stRel]⟩
    | .timeoutErr => ⟨.terminal (.timeout attempt), stRel, [stAcq, stRel]⟩
    | .otherErr => ⟨.terminal (.app attempt), stRel, [stAcq, stRel]⟩

/-- Everything observable about one `call_service` run: its result, the
final registry state, the number of attempts that entered the loop body,
the backoff sleeps in order, and the trace of intermediate states. -/
structure ExecLog where
  result : CallResult
  finalState : GRPCClient
  attempts : Nat
  delays : List ℚ
  trace : List GRPCClient
deriving Repr

/-- The retry loop of `call_service`.  `fuel` is the number of remaining
iterations (`retries + 1 - attempt`); `lastErr` is the `last_error`
variable.  On a `GRPCError` the loop sleeps `retry_delay * 2 ** attempt`
when attempts remain and continues; on any other exception it breaks; when
the range is exhausted it raises `last_error or Exception(...)`. -/
def callServiceLoop (lb : String) (randPick : Nat)
    (outcomes : Nat → CallOutcome) (d : ℚ) (name : String) (retries : Nat) :
    Nat → Nat → GRPCClient → Option CallError → ExecLog
  | _, 0, st, lastErr => ⟨.err (lastErr.getD .generic), st, 0, [], []⟩
  | attempt, fuel + 1, st, lastErr =>
    match (attemptStep lb randPick (outcomes attempt) name attempt st).res with
    | .success =>
      ⟨.ok, (attemptStep lb randPick (outcomes attempt) name attempt st).st, 1,
       [], (attemptStep lb randPick (outcomes attempt) name attempt st).trace⟩
    | .terminal e =>
      ⟨.err e, (attemptStep lb randPick (outcomes attempt) name attempt st).st,
       1, [],
       (attemptStep lb randPick (outcomes attempt) name attempt st).trace⟩
    | .transient e =>
      let rest := callServiceLoop lb randPick outcomes d name retries
        (attempt + 1) fuel
        (attemptStep lb randPick (outcomes attempt) name attempt st).st (some e)
      ⟨rest.result, rest.finalState, rest.attempts + 1,
       (if attempt < retries then [d * 2 ^ attempt] else []) ++ rest.delays,
       (attemptStep lb randPick (outcomes attempt) name attempt st).trace
         ++ rest.trace⟩

/-- Embeds `GRPCClient.call_service(service_name, method, request,
retries)`: run the retry loop from attempt 0 with `retries + 1`
iterations available.  `d` is `settings.retry_delay`; `outcomes` is the
oracle giving the backend's behavior on each attempt. -/
def call_service (lb : String) (randPick : Nat)
    (outcomes : Nat → CallOutcome) (d : ℚ) (st : GRPCClient) (name : String)
    (retries : Nat) : ExecLog :=
  callServiceLoop lb randPick outcomes d name retries 0 (retries + 1) st none

/-- A finished sequence of `call_service` invocations, each described by
its target service, retry budget and outcome oracle, threaded through the
shared client state. -/
def runCallSequence (lb : String) (randPick : Nat) (d : ℚ) :
    GRPCClient → List (String × Nat × (Nat → CallOutcome)) → GRPCClient
  | st, [] => st
  | st, (name, retries, outcomes) :: rest =>
    runCallSequence lb randPick d
      (call_service lb randPick outcomes d st name retries).finalState rest

/-- All in-flight counters of the state are non-negative. -/
def NonnegState (st : GRPCClient) : Prop :=
  ∀ e ∈ st.services, ∀ i ∈ e.2, 0 ≤ i.connections

instance : DecidablePred NonnegState := fun st => by
  unfold NonnegState; infer_instance

/-- Decidable form of "the registry knows the service and at least one of
its instances is healthy": exactly the condition under which
`_get_next_instance` returns an instance. -/
def hasHealthyB (st : GRPCClient) (name : String) : Bool :=
  match lookupA name st.services with
  | none => false
  | some insts => !(insts.filter (fun i => i.is_healthy)).isEmpty

/-- Total number of registered instances over all services. -/
def totalInstances (st : GRPCClient) : Nat :=
  (st.services.map (fun e => e.2.length)).sum

/-- Number of registered instances matching one
(service name, host, port) tuple. -/
def countTuple (st : GRPCClient) (s h : String) (p : Nat) : Nat :=
  (st.services.map (fun e =>
    if e.1 = s then
      e.2.countP (fun i => i.host = h ∧ i.port = p)
    else 0)).sum

/-- The freshly constructed client, before `initialize` runs. -/
def emptyClient : GRPCClient := ⟨[], [], []⟩

/-- A client state holding a single service: the shape produced by
`initialize` for one logical service, with an arbitrary cursor and pool. -/
def mkClient (name : String) (insts : List ServiceInstance) (c : Nat)
    (chs : List String) : GRPCClient :=
  ⟨[(name, insts)], [(name, c)], chs⟩

/-- The JSON leaf values the handler stubs of websocket.py produce. -/
inductive JVal
  | str (s : String)
  | bool (b : Bool)
  | null
deriving DecidableEq, Repr

/-- A JSON object payload, as a field list. -/
abbrev JObj := List (String × JVal)

/-- The field projections of an inbound client JSON message that
websocket.py reads (`data.get(...)`). -/
structure WSMessage where
  type? : Option String := none
  request_id? : Option String := none
  token? : Option String := none
  message? : Option String := none
  room_id? : Option String := none
  user_id? : Option String := none
deriving DecidableEq, Repr

/-- Convert an optional string the way an f-string/JSON layer would embed
a possibly-missing value. -/
def jopt : Option String → JVal
  | some s => .str s
  | none => .null

/-- Embeds `WebSocketHandler._handle_auth` (a stub that always
succeeds). -/
def _handle_auth (_ : WSMessage) : Except String JObj :=
  .ok [("authenticated", .bool true), ("user_id", .str "123")]

/-- Embeds `WebSocketHandler._handle_chat_message`. -/
def _handle_chat_message (data : WSMessage) : Except String JObj :=
  .ok [("status", .str "sent"), ("room_id", jopt data.room_id?)]

/-- Embeds `WebSocketHandler._handle_get_user`. -/
def _handle_get_user (data : WSMessage) : Except String JObj :=
  .ok [("id", jopt data.user_id?), ("name", .str "John Doe")]

/-- A registered message handler: may return a payload or raise (the
dispatcher catches any exception from `await handler(...)`). -/
abbrev Handler := WSMessage → Except String JObj

/-- Embeds `self.message_handlers` as registered by
`WebSocketHandler._register_handlers`. -/
def message_handlers : List (String × Handler) :=
  [("auth", _handle_auth),
   ("chat_message", _handle_chat_message),
   ("get_user", _handle_get_user)]

/-- A JSON response sent by `_process_message` via
`manager.send_message`. -/
structure WSResponse where
  type : String
  request_id : String
  data? : Option JObj := none
  error? : Option String := none
  success : Bool
deriving DecidableEq, Repr

/-- Embeds `WebSocketHandler._process_message`.  `table` is
`self.message_handlers`; `fresh` is the oracle for `str(uuid.uuid4())`,
used as the request id exactly when the client supplied none.  An unknown
(or missing) `type` raises `Exception(f"Unknown message type: ...")`,
which — like a handler exception — is caught and converted into the error
response the source builds in the `except` block. -/
def _process_message (table : List (String × Handler)) (fresh : String)
    (data : WSMessage) : WSResponse :=
  let request_id := (data.request_id?).getD fresh
  match data.type? with
  | some t =>
    match lookupA t table with
    | some h =>
      match h data with
      | .ok d =>
        { type := t ++ "_response", request_id := request_id,
          data? := some d, success := true }
      | .error e =>
        { type := "error", request_id := request_id, error? := some e,
          success := false }
    | none =>
      { type := "error", request_id := request_id,
        error? := some ("Unknown message type: " ++ t), success := false }
  | none =>
    { type := "error", request_id := request_id,
      error? := some "Unknown message type: None", success := false }

/-- A message sent server → client inside the receive loop: either the
liveness probe or a dispatcher response. -/
inductive SentMsg
  | ping
  | response (r : WSResponse)
deriving DecidableEq, Repr

/-- One observable event of the receive loop of
`WebSocketHandler.handle_connection`: either a message arrived within the
300-unit inactivity timeout, or the timeout fired and `reply?` is what the
client sent back (within the 10-unit secondary timeout) to the ping —
`none` meaning the secondary timeout also fired. -/
inductive LoopEvent
  | msg (data : WSMessage)
  | inactivity (reply? : Option WSMessage)
deriving DecidableEq, Repr

/-- What one iteration of the `while True` loop did: the messages it sent,
and whether it stayed in the loop or broke out of it. -/
inductive StepOutcome
  | stay (sent : List SentMsg)
  | leave (sent : List SentMsg)
deriving DecidableEq, Repr

/-- One iteration of the receive loop: a received message is dispatched
through `_process_message` and its response sent; an inactivity timeout
sends a ping and then either keeps the loop (reply of type "pong") or
breaks (any other reply, or no reply before the secondary timeout). -/
def loopStep (table : List (String × Handler)) (fresh : String)
    (ev : LoopEvent) : StepOutcome :=
  match ev with
  | .msg data => .stay [.response (_process_message table fresh data)]
  | .inactivity reply? =>
    match reply? with
    | some pong =>
      if pong.type? = some "pong" then .stay [.ping] else .leave [.ping]
    | none => .leave [.ping]

/-- Embeds `ConnectionManager.disconnect`: drop the binding of the client
id from the active-connection dict (idempotent). -/
def disconnect (conns : List String) (cid : String) : List String :=
  conns.filter (fun x => x ≠ cid)

/-- Result of running the receive loop over a finite prefix of events:
everything sent, the Connection Manager's active set afterwards, and
whether the loop is still running. -/
structure LoopRun where
  sent : List SentMsg
  manager : List String
  stillOpen : Bool
deriving DecidableEq, Repr

/-- Run the receive loop of `handle_connection` over a finite event
prefix.  When an iteration breaks out of the loop, the `finally` block
removes the client from the Connection Manager and no further events are
consumed; otherwise the connection is still open and waiting. -/
def runLoop (table : List (String × Handler)) (fresh cid : String) :
    List String → List LoopEvent → LoopRun
  | mgr, [] => ⟨[], mgr, true⟩
  | mgr, ev :: rest =>
    match loopStep table fresh ev with
    | .stay sent =>
      let r := runLoop table fresh cid mgr rest
      ⟨sent ++ r.sent, r.manager, r.stillOpen⟩
    | .leave sent => ⟨sent, disconnect mgr cid, false⟩

/-! ### Association-list and counter lemmas -/

theorem updateAssoc_comp (k : String) (f g : β → β) :
    ∀ l : List (String × β),
      updateAssoc k f (updateAssoc k g l) = updateAssoc k (fun v => f (g v)) l
  | [] => rfl
  | (k₂, v) :: rest => by
    by_cases h : k₂ = k <;> simp [updateAssoc, h, updateAssoc_comp k f g rest]

theorem updateAssoc_id (k : String) (f : β → β) (hf : ∀ v, f v = v) :
    ∀ l : List (String × β), updateAssoc k f l = l
  | [] => rfl
  | (k₂, v) :: rest => by
    by_cases h : k₂ = k <;> simp [updateAssoc, h, hf, updateAssoc_id k f hf rest]

theorem addConnAt_cancel :
    ∀ (l : List ServiceInstance) (p : Nat),
      addConnAt (addConnAt l p 1) p (-1) = l
  | [], _ => rfl
  | i :: rest, 0 => by
    have h : i.connections + 1 + -1 = i.connections := by omega
    simp [addConnAt, h]
  | i :: rest, p + 1 => by
    simp [addConnAt, addConnAt_cancel rest p]

theorem addConn_release (st st₂ : GRPCClient) (name : String) (p : Nat)
    (h : st₂.services = (addConn st name p 1).services) :
    (addConn st₂ name p (-1)).services = st.services := by
  simp only [addConn, h, updateAssoc_comp]
  exact updateAssoc_id name _ (fun v => addConnAt_cancel v p) st.services

/-! ### Selection preserves the registry -/

theorem gnip_services (lb : String) (rp : Nat) (st : GRPCClient)
    (name : String) :
    (getNextInstancePos lb rp st name).2.services = st.services := by
  unfold getNextInstancePos
  cases lookupA name st.services with
  | none => rfl
  | some insts =>
    simp only []
    split
    · rfl
    · split
      · rfl
      · split <;> rfl

theorem attemptStep_services (lb : String) (rp : Nat) (o : CallOutcome)
    (name : String) (a : Nat) (st : GRPCClient) :
    (attemptStep lb rp o name a st).st.services = st.services := by
  unfold attemptStep
  rcases hg : getNextInstancePos lb rp st name with ⟨p?, st₂⟩
  have hs : st₂.services = st.services := by
    have := gnip_services lb rp st name
    rw [hg] at this; exact this
  cases p? with
  | none => simpa using hs
  | some p =>
    have hrel : (addConn { addConn st₂ name p 1 with
        channels := ensureChannel (addConn st₂ name p 1).channels
          (channelKey (((instancesOf st₂ name).get? p).getD
            { host := "", port := 0 })) } name p (-1)).services = st₂.services :=
      addConn_release st₂ _ name p rfl
    cases o <;> simp only [] <;> rw [hrel] <;> exact hs

/-! ### Non-negativity of the in-flight counters -/

theorem nonneg_congr {st₁ st₂ : GRPCClient}
    (h : st₁.services = st₂.services) (hn : NonnegState st₁) :
    NonnegState st₂ := by
  unfold NonnegState at *
  rw [← h]; exact hn

theorem nonneg_updateAssoc {l : List (String × List ServiceInstance)}
    {f : List ServiceInstance → List ServiceInstance} (k : String)
    (hf : ∀ v, (∀ i ∈ v, 0 ≤ i.connections) → ∀ i ∈ f v, 0 ≤ i.connections) :
    (∀ e ∈ l, ∀ i ∈ e.2, 0 ≤ i.connections) →
      ∀ e ∈ updateAssoc k f l, ∀ i ∈ e.2, 0 ≤ i.connections := by
  induction l with
  | nil => intro _ e he; simp [updateAssoc] at he
  | cons hd tl ih =>
    intro hl e he
    rcases hd with ⟨k₂, v⟩
    by_cases hk : k₂ = k
    · subst hk
      simp [updateAssoc] at he
      rcases he with he | he
      · subst he; exact hf v (hl (k₂, v) (by simp))
      · exact hl e (List.mem_cons_of_mem _ he)
    · simp only [updateAssoc, if_neg hk, List.mem_cons] at he
      rcases he with he | he
      · subst he; exact hl (k₂, v) (by simp)
      · exact ih (fun e₂ he₂ => hl e₂ (List.mem_cons_of_mem _ he₂)) e he

theorem addConnAt_inc_nonneg :
    ∀ (v : List ServiceInstance) (p : Nat),
      (∀ i ∈ v, 0 ≤ i.connections) →
        ∀ i ∈ addConnAt v p 1, 0 ≤ i.connections
  | [], _, _ => by simp [addConnAt]
  | i :: rest, 0, h => by
    intro j hj
    rw [addConnAt, List.mem_cons] at hj
    rcases hj with hj | hj
    · subst hj
      have := h i (by simp)
      show 0 ≤ i.connections + 1
      omega
    · exact h j (List.mem_cons_of_mem _ hj)
  | i :: rest, p + 1, h => by
    intro j hj
    rw [addConnAt, List.mem_cons] at hj
    rcases hj with hj | hj
    · exact hj ▸ h i (by simp)
    · exact addConnAt_inc_nonneg rest p
        (fun x hx => h x (List.mem_cons_of_mem _ hx)) j hj

theorem attemptStep_trace_nonneg (lb : String) (rp : Nat) (o : CallOutcome)
    (name : String) (a : Nat) (st : GRPCClient) (hn : NonnegState st) :
    ∀ s ∈ (attemptStep lb rp o name a st).trace, NonnegState s := by
  unfold attemptStep
  rcases hg : getNextInstancePos lb rp st name with ⟨p?, st₂⟩
  have hs : st₂.services = st.services := by
    have := gnip_services lb rp st name
    rw [hg] at this; exact this
  have hn₂ : NonnegState st₂ := nonneg_congr hs.symm hn
  cases p? with
  | none => intro s hsm; simp only [List.mem_singleton] at hsm; subst hsm; exact hn₂
  | some p =>
    have hacq : NonnegState (addConn st₂ name p 1) := by
      unfold NonnegState addConn at *
      exact nonneg_updateAssoc name (fun v hv => addConnAt_inc_nonneg v p hv) hn₂
    have hrel : NonnegState (addConn { addConn st₂ name p 1 with
        channels := ensureChannel (addConn st₂ name p 1).channels
          (channelKey (((instancesOf st₂ name).get? p).getD
            { host := "", port := 0 })) } name p (-1)) :=
      nonneg_congr (addConn_release st₂ _ name p rfl).symm hn₂
    cases o <;> intro s hsm <;>
      simp only [List.mem_cons, List.mem_singleton, List.not_mem_nil,
        or_false] at hsm <;>
      rcases hsm with hsm | hsm <;> subst hsm <;> first | exact hacq | exact hrel

theorem callServiceLoop_c1 (lb : String) (rp : Nat)
    (outcomes : Nat → CallOutcome) (d : ℚ) (name : String) (retries : Nat) :
    ∀ (fuel attempt : Nat) (st : GRPCClient) (lastErr : Option CallError),
      (callServiceLoop lb rp outcomes d name retries attempt fuel st
          lastErr).finalState.services = st.services
      ∧ (NonnegState st →
          ∀ s ∈ (callServiceLoop lb rp outcomes d name retries attempt fuel st
              lastErr).trace, NonnegState s) := by
  intro fuel
  induction fuel with
  | zero =>
    intro attempt st lastErr
    exact ⟨rfl, fun _ s hs => by simp [callServiceLoop] at hs⟩
  | succ n ih =>
    intro attempt st lastErr
    rcases h : (attemptStep lb rp (outcomes attempt) name attempt st).res with
      _ | e | e
    · constructor
      · simp only [callServiceLoop, h]
        exact attemptStep_services lb rp (outcomes attempt) name attempt st
      · intro hn s hs
        simp only [callServiceLoop, h] at hs
        exact attemptStep_trace_nonneg lb rp (outcomes attempt) name attempt st
          hn s hs
    · constructor
      · simp only [callServiceLoop, h]
        have hrest := (ih (attempt + 1)
          (attemptStep lb rp (outcomes attempt) name attempt st).st
          (some e)).1
        rw [hrest]
        exact attemptStep_services lb rp (outcomes attempt) name attempt st
      · intro hn s hs
        simp only [callServiceLoop, h, List.mem_append] at hs
        rcases hs with hs | hs
        · exact attemptStep_trace_nonneg lb rp (outcomes attempt) name attempt
            st hn s hs
        · have hn₂ : NonnegState
              (attemptStep lb rp (outcomes attempt) name attempt st).st :=
            nonneg_congr
              (attemptStep_services lb rp (outcomes attempt) name attempt
                st).symm hn
          exact (ih (attempt + 1)
            (attemptStep lb rp (outcomes attempt) name attempt st).st
            (some e)).2 hn₂ s hs
    · constructor
      · simp only [callServiceLoop, h]
        exact attemptStep_services lb rp (outcomes attempt) name attempt st
      · intro hn s hs
        simp only [callServiceLoop, h] at hs
        exact attemptStep_trace_nonneg lb rp (outcomes attempt) name attempt st
          hn s hs

theorem runCallSequence_services (lb : String) (rp : Nat) (d : ℚ) :
    ∀ (calls : List (String × Nat × (Nat → CallOutcome))) (st : GRPCClient),
      (runCallSequence lb rp d st calls).services = st.services
  | [], _ => rfl
  | (name, retries, outcomes) :: rest, st => by
    rw [runCallSequence, runCallSequence_services lb rp d rest]
    exact (callServiceLoop_c1 lb rp outcomes d name retries (retries + 1) 0 st
      none).1

/-- C1: every in-flight increment performed by the call executor's channel
acquisition is matched by exactly one decrement on every exit path, so a
finished `call_service` run — and hence any finished sequence of runs —
leaves every instance's in-flight count exactly as it was, and the count
is non-negative in every intermediate state when it starts non-negative. -/
theorem C1_inflight_pairing (lb : String) (rp : Nat) (d : ℚ)
    (st : GRPCClient) (hn : NonnegState st) :
    (∀ (outcomes : Nat → CallOutcome) (name : String) (retries : Nat),
        (call_service lb rp outcomes d st name retries).finalState.services
            = st.services
        ∧ ∀ s ∈ (call_service lb rp outcomes d st name retries).trace,
            NonnegState s)
    ∧ ∀ calls, (runCallSequence lb rp d st calls).services = st.services := by
  constructor
  · intro outcomes name retries
    exact ⟨(callServiceLoop_c1 lb rp outcomes d name retries (retries + 1) 0 st
        none).1,
      fun s hs => (callServiceLoop_c1 lb rp outcomes d name retries
        (retries + 1) 0 st none).2 hn s hs⟩
  · intro calls
    exact runCallSequence_services lb rp d calls st

theorem C1_inflight_pairing_witness :
    NonnegState (mkClient "a" [{ host := "a-1", port := 1 }] 0 [])
    ∧ (call_service "round-robin" 0 (fun _ => CallOutcome.grpcErr) 1
          (mkClient "a" [{ host := "a-1", port := 1 }] 0 [])
          "a" 1).finalState.services
        = (mkClient "a" [{ host := "a-1", port := 1 }] 0 []).services
    ∧ NonnegState
        ⟨[("a", [{ host := "a-1", port := 1, is_healthy := true,
                   connections := 1 }])], [("a", 1)], []⟩ :=
  ⟨by decide,
   ((C1_inflight_pairing "round-robin" 0 1
       (mkClient "a" [{ host := "a-1", port := 1 }] 0 []) (by decide)).1
       (fun _ => CallOutcome.grpcErr) "a" 1).1,
   ((C1_inflight_pairing "round-robin" 0 1
       (mkClient "a" [{ host := "a-1", port := 1 }] 0 []) (by decide)).1
       (fun _ => CallOutcome.grpcErr) "a" 1).2
     ⟨[("a", [{ host := "a-1", port := 1, is_healthy := true,
                connections := 1 }])], [("a", 1)], []⟩ (by decide)⟩

/-! ### Registration appends unconditionally -/

theorem sumLens_updateAssoc_append (k : String) (x : ServiceInstance) :
    ∀ l : List (String × List ServiceInstance), (lookupA k l).isSome →
      ((updateAssoc k (fun v => v ++ [x]) l).map
          (fun e => e.2.length)).sum
        = (l.map (fun e => e.2.length)).sum + 1 := by
  intro l
  induction l with
  | nil => intro h; simp [lookupA] at h
  | cons hd tl ih =>
    rcases hd with ⟨k₂, v⟩
    intro h
    by_cases hk : k₂ = k
    · subst hk
      simp [updateAssoc]
      omega
    · have h₂ : (lookupA k tl).isSome := by
        simpa [lookupA, hk] using h
      simp only [updateAssoc, if_neg hk, List.map_cons, List.sum_cons, ih h₂]
      omega

theorem updateAssoc_append_missing (k : String) (v : β) (f : β → β) :
    ∀ l : List (String × β), lookupA k l = none →
      updateAssoc k f (l ++ [(k, v)]) = l ++ [(k, f v)] := by
  intro l
  induction l with
  | nil => intro _; simp [updateAssoc]
  | cons hd tl ih =>
    rcases hd with ⟨k₂, w⟩
    intro h
    have hk : ¬ k₂ = k := by
      intro he
      simp [lookupA, he] at h
    have h₂ : lookupA k tl = none := by
      simpa [lookupA, hk] using h
    simp [updateAssoc, hk, ih h₂]

theorem registerAddr_total (st st₂ : GRPCClient) (addr : String)
    (h : registerAddr st addr = some st₂) :
    totalInstances st₂ = totalInstances st + 1 := by
  unfold registerAddr at h
  rcases hp : parseAddr addr with _ | ⟨host, port⟩
  · rw [hp] at h; exact absurd h (by simp)
  · rw [hp] at h
    simp only [Option.some.injEq] at h
    subst h
    by_cases hk : (lookupA (serviceNameOf host) st.services).isSome
    · simp only [if_pos hk]
      unfold totalInstances
      exact sumLens_updateAssoc_append (serviceNameOf host) _ st.services hk
    · simp only [if_neg hk]
      have hnone : lookupA (serviceNameOf host) st.services = none := by
        rcases he : lookupA (serviceNameOf host) st.services with _ | v
        · rfl
        · rw [he] at hk; simp at hk
      unfold totalInstances
      simp only []
      rw [updateAssoc_append_missing (serviceNameOf host) [] _ st.services
        hnone]
      simp

theorem initializeRegistry_total :
    ∀ (addrs : List String) (st st₂ : GRPCClient),
      initializeRegistry st addrs = some st₂ →
      totalInstances st₂ = totalInstances st + addrs.length := by
  intro addrs
  induction addrs with
  | nil =>
    intro st st₂ h
    simp only [initializeRegistry, Option.some.injEq] at h
    subst h; simp
  | cons addr rest ih =>
    intro st st₂ h
    simp only [initializeRegistry] at h
    rcases hr : registerAddr st addr with _ | st₁
    · rw [hr] at h; exact absurd h (by simp)
    · rw [hr] at h
      have := ih st₁ st₂ h
      have h₁ := registerAddr_total st st₁ addr hr
      simp only [List.length_cons]
      omega

/-- C2 counterexample: initializing from a configuration that repeats the
address `svc-a:1` leaves the registry with two instances carrying the
identical (service name, host, port) tuple ("svc", "svc-a", 1) — the add
is not idempotent. -/
theorem C2_register_counterexample :
    ∃ st, initializeRegistry emptyClient ["svc-a:1", "svc-a:1"] = some st
      ∧ countTuple st "svc" "svc-a" 1 = 2 :=
  ⟨⟨[("svc", [{ host := "svc-a", port := 1 },
              { host := "svc-a", port := 1 }])], [("svc", 0)], []⟩,
   by decide, by decide⟩

/-- C2 (amended): registration is not idempotent — each configured
address appends exactly one instance to the registry, so after
initialization the total instance count equals the previous count plus
the number of addresses, and an address repeating an already-present
(service, host, port) tuple produces a duplicate entry. -/
theorem C2_register_appends (addrs : List String) (st st₂ : GRPCClient)
    (h : initializeRegistry st addrs = some st₂) :
    totalInstances st₂ = totalInstances st + addrs.length :=
  initializeRegistry_total addrs st st₂ h

theorem C2_register_appends_witness :
    initializeRegistry emptyClient ["svc-a:1", "svc-a:1"]
        = some ⟨[("svc", [{ host := "svc-a", port := 1 },
                          { host := "svc-a", port := 1 }])], [("svc", 0)], []⟩
    ∧ totalInstances ⟨[("svc", [{ host := "svc-a", port := 1 },
                                { host := "svc-a", port := 1 }])],
        [("svc", 0)], []⟩
      = totalInstances emptyClient + 2 :=
  ⟨by decide,
   C2_register_appends ["svc-a:1", "svc-a:1"] emptyClient
     ⟨[("svc", [{ host := "svc-a", port := 1 },
                { host := "svc-a", port := 1 }])], [("svc", 0)], []⟩
     (by decide)⟩

/-! ### Round-robin selection is a rotation -/

theorem nthHealthyPos_all :
    ∀ (l : List ServiceInstance), (∀ i ∈ l, i.is_healthy = true) →
      ∀ k, k < l.length → nthHealthyPos l k = some k
  | [], _, k, hk => absurd hk (by simp)
  | i :: rest, h, k, hk => by
    have hi : i.is_healthy = true := h i (by simp)
    cases k with
    | zero => simp [nthHealthyPos, hi]
    | succ k₂ =>
      have hrest : ∀ j ∈ rest, j.is_healthy = true :=
        fun j hj => h j (List.mem_cons_of_mem _ hj)
      have hk₂ : k₂ < rest.length := by
        simpa [Nat.succ_lt_succ_iff] using hk
      simp [nthHealthyPos, hi, nthHealthyPos_all rest hrest k₂ hk₂]

theorem gnip_rr_mkClient (rp : Nat) (name : String)
    (insts : List ServiceInstance) (c : Nat) (chs : List String)
    (hne : insts ≠ []) (hh : ∀ i ∈ insts, i.is_healthy = true) :
    getNextInstancePos "round-robin" rp (mkClient name insts c chs) name
      = (some (c % insts.length), mkClient name insts (c + 1) chs) := by
  have hfilter : insts.filter (fun i => i.is_healthy) = insts :=
    List.filter_eq_self.mpr hh
  have hlen : 0 < insts.length := List.length_pos.mpr hne
  have hmod : c % insts.length < insts.length := Nat.mod_lt c hlen
  have hie : insts.isEmpty = false := by
    simpa [List.isEmpty_iff] using hne
  have hlook : lookupA name [(name, insts)] = some insts := by simp [lookupA]
  have hcur : lookupA name [(name, c)] = some c := by simp [lookupA]
  have hup : updateAssoc name (fun x => x + 1) [(name, c)] = [(name, c + 1)] := by
    simp [updateAssoc]
  simp [getNextInstancePos, mkClient, hfilter, hie, hlook, hcur, hup,
    nthHealthyPos_all insts hh _ hmod]

theorem selectN_rr (rp : Nat) (name : String) (insts : List ServiceInstance)
    (chs : List String) (hne : insts ≠ [])
    (hh : ∀ i ∈ insts, i.is_healthy = true) :
    ∀ (n c : Nat),
      selectN "round-robin" rp name n (mkClient name insts c chs)
        = (List.range n).map (fun i => insts.get? ((c + i) % insts.length))
  | 0, _ => by simp [selectN]
  | n + 1, c => by
    rw [selectN, _get_next_instance, gnip_rr_mkClient rp name insts c chs hne hh]
    simp only []
    rw [selectN_rr rp name insts chs hne hh n (c + 1)]
    rw [List.range_succ_eq_map]
    simp only [List.map_cons, List.map_map]
    congr 1
    · show (instancesOf (mkClient name insts c chs) name).get? (c % insts.length)
        = insts.get? ((c + 0) % insts.length)
      simp [instancesOf, mkClient, lookupA]
    · have harg : ∀ i : Nat, c + 1 + i = c + Nat.succ i := fun i => by omega
      simp [Function.comp, harg]

theorem rr_rotation (insts : List ServiceInstance) (hne : insts ≠ [])
    (c : Nat) :
    (List.range insts.length).map
        (fun i => insts.get? ((c + i) % insts.length))
      = (insts.rotate (c % insts.length)).map some := by
  have hlen : 0 < insts.length := List.length_pos.mpr hne
  apply List.ext_get?_iff.mpr
  intro n
  by_cases hn : n < insts.length
  · rw [List.get?_map, List.get?_map, List.get?_range hn,
      List.get?_rotate (by simpa using hn)]
    have hmm : (n + c % insts.length) % insts.length
        = (c + n) % insts.length := by
      rw [Nat.add_mod_mod, Nat.add_comm]
    rw [hmm]
    rcases he : insts.get? ((c + n) % insts.length) with _ | x
    · rw [List.get?_eq_none] at he
      exact absurd he (Nat.not_le.mpr (Nat.mod_lt _ hlen))
    · simp
      simpa [List.get?_eq_getElem?] using he
  · rw [List.get?_eq_none.mpr (by simpa using Nat.le_of_not_lt hn),
      List.get?_eq_none.mpr (by simpa using Nat.le_of_not_lt hn)]

/-- C3: under the round-robin policy, starting from any cursor value, N
consecutive selections over N registered all-healthy instances succeed
and return each instance exactly once — the selection sequence is the
instance list rotated by the starting cursor, hence a permutation of the
healthy set. -/
theorem C3_round_robin_permutation (rp : Nat) (name : String)
    (insts : List ServiceInstance) (c : Nat) (chs : List String)
    (hne : insts ≠ []) (hh : ∀ i ∈ insts, i.is_healthy = true) :
    List.Perm ((selectN "round-robin" rp name insts.length
        (mkClient name insts c chs)).filterMap id) insts
    ∧ ∀ x ∈ selectN "round-robin" rp name insts.length
        (mkClient name insts c chs), x.isSome := by
  rw [selectN_rr rp name insts chs hne hh insts.length c,
    rr_rotation insts hne c]
  constructor
  · rw [List.filterMap_map]
    show List.Perm (List.filterMap some (insts.rotate (c % insts.length))) insts
    rw [List.filterMap_some]
    exact List.rotate_perm insts (c % insts.length)
  · intro x hx
    rcases List.mem_map.mp hx with ⟨y, _, rfl⟩
    simp

theorem C3_round_robin_permutation_witness :
    ([{ host := "a-1", port := 1 }, { host := "a-2", port := 2 },
      { host := "a-3", port := 3 }] : List ServiceInstance) ≠ []
    ∧ List.Perm ((selectN "round-robin" 0 "a" 3
        (mkClient "a"
          [{ host := "a-1", port := 1 }, { host := "a-2", port := 2 },
           { host := "a-3", port := 3 }] 5 [])).filterMap id)
        [{ host := "a-1", port := 1 }, { host := "a-2", port := 2 },
         { host := "a-3", port := 3 }] :=
  ⟨by decide,
   (C3_round_robin_permutation 0 "a"
     [{ host := "a-1", port := 1 }, { host := "a-2", port := 2 },
      { host := "a-3", port := 3 }] 5 [] (by decide) (by decide)).1⟩

/-! ### Classification of one retry-loop iteration -/

/-- How the except-clauses of `call_service` classify the outcome of one
attempt: `GRPCError` is the retried class, everything else breaks the
loop. -/
def classifyOutcome (o : CallOutcome) (a : Nat) : StepRes :=
  match o with
  | .ok => .success
  | .grpcErr => .transient (.grpc a)
  | .timeoutErr => .terminal (.timeout a)
  | .otherErr => .terminal (.app a)

theorem nthHealthyPos_isSome :
    ∀ (l : List ServiceInstance) (k : Nat),
      k < (l.filter (fun i => i.is_healthy)).length →
      (nthHealthyPos l k).isSome
  | [], k, hk => by simp at hk
  | i :: rest, k, hk => by
    by_cases hi : i.is_healthy
    · rw [List.filter_cons_of_pos (by simp [hi])] at hk
      cases k with
      | zero => simp [nthHealthyPos, hi]
      | succ k₂ =>
        have hr := nthHealthyPos_isSome rest k₂
          (by simpa [Nat.succ_lt_succ_iff] using hk)
        rcases Option.isSome_iff_exists.mp hr with ⟨v, hv⟩
        simp [nthHealthyPos, hi, hv]
    · rw [List.filter_cons_of_neg (by simp [hi])] at hk
      have hr := nthHealthyPos_isSome rest k hk
      rcases Option.isSome_iff_exists.mp hr with ⟨v, hv⟩
      simp [nthHealthyPos, hi, hv]

theorem minConnPos_isSome :
    ∀ l : List ServiceInstance,
      l.filter (fun i => i.is_healthy) ≠ [] → (minConnPos l).isSome
  | [], h => absurd (by simp) h
  | i :: rest, h => by
    by_cases hi : i.is_healthy
    · rcases hm : minConnPos rest with _ | q
      · simp [minConnPos, hi, hm]
      · rcases q with ⟨p, m⟩
        by_cases hle : i.connections ≤ m <;> simp [minConnPos, hi, hm, hle]
    · have h₂ : rest.filter (fun i => i.is_healthy) ≠ [] := by
        rwa [List.filter_cons_of_neg (by simp [hi])] at h
      have hr := minConnPos_isSome rest h₂
      rcases Option.isSome_iff_exists.mp hr with ⟨v, hv⟩
      simp [minConnPos, hi, hv]

theorem gnip_none_of (lb : String) (rp : Nat) (st : GRPCClient)
    (name : String) (h : hasHealthyB st name = false) :
    getNextInstancePos lb rp st name = (none, st) := by
  unfold hasHealthyB at h
  rcases hl : lookupA name st.services with _ | insts
  · unfold getNextInstancePos; rw [hl]
  · rw [hl] at h
    change (!(insts.filter (fun i => i.is_healthy)).isEmpty) = false at h
    have he : (insts.filter (fun i => i.is_healthy)).isEmpty = true := by
      cases hb : (insts.filter (fun i => i.is_healthy)).isEmpty
      · rw [hb] at h; simp at h
      · rfl
    unfold getNextInstancePos
    rw [hl]
    simp only []
    rw [if_pos he]

theorem gnip_isSome (lb : String) (rp : Nat) (st : GRPCClient)
    (name : String) (h : hasHealthyB st name = true) :
    ((getNextInstancePos lb rp st name).1).isSome := by
  unfold hasHealthyB at h
  rcases hl : lookupA name st.services with _ | insts
  · rw [hl] at h; simp at h
  · rw [hl] at h
    simp only [Bool.not_eq_true'] at h
    have hne : insts.filter (fun i => i.is_healthy) ≠ [] := by
      simpa [List.isEmpty_iff] using h
    have hlen : 0 < (insts.filter (fun i => i.is_healthy)).length :=
      List.length_pos.mpr hne
    unfold getNextInstancePos
    rw [hl]
    simp only []
    rw [if_neg (by simp [h])]
    by_cases h1 : lb = "round-robin"
    · rw [if_pos h1]
      exact nthHealthyPos_isSome insts _ (Nat.mod_lt _ hlen)
    · rw [if_neg h1]
      by_cases h2 : lb = "random"
      · rw [if_pos h2]
        exact nthHealthyPos_isSome insts _ (Nat.mod_lt _ hlen)
      · rw [if_neg h2]
        have hr := minConnPos_isSome insts hne
        rcases Option.isSome_iff_exists.mp hr with ⟨v, hv⟩
        simp [hv]

theorem hasHealthyB_congr {st₁ st₂ : GRPCClient} (name : String)
    (h : st₁.services = st₂.services) :
    hasHealthyB st₁ name = hasHealthyB st₂ name := by
  unfold hasHealthyB
  rw [h]

theorem attemptStep_noH (lb : String) (rp : Nat) (o : CallOutcome)
    (name : String) (a : Nat) (st : GRPCClient)
    (h : hasHealthyB st name = false) :
    attemptStep lb rp o name a st = ⟨.terminal (.noHealthy name), st, [st]⟩ := by
  unfold attemptStep
  rw [gnip_none_of lb rp st name h]

theorem attemptStep_res (lb : String) (rp : Nat) (o : CallOutcome)
    (name : String) (a : Nat) (st : GRPCClient)
    (h : hasHealthyB st name = true) :
    (attemptStep lb rp o name a st).res = classifyOutcome o a := by
  have him := gnip_isSome lb rp st name h
  unfold attemptStep
  rcases hg : getNextInstancePos lb rp st name with ⟨p?, st₂⟩
  rw [hg] at him
  rcases p? with _ | p
  · simp at him
  · cases o <;> rfl

/-! ### Unfolding one iteration of the retry loop -/

theorem loop_noH (lb : String) (rp : Nat) (outcomes : Nat → CallOutcome)
    (d : ℚ) (name : String) (retries attempt fuel : Nat) (st : GRPCClient)
    (lastErr : Option CallError) (h : hasHealthyB st name = false) :
    callServiceLoop lb rp outcomes d name retries attempt (fuel + 1) st
        lastErr
      = ⟨.err (.noHealthy name), st, 1, [], [st]⟩ := by
  simp only [callServiceLoop,
    attemptStep_noH lb rp (outcomes attempt) name attempt st h]

theorem loop_ok (lb : String) (rp : Nat) (outcomes : Nat → CallOutcome)
    (d : ℚ) (name : String) (retries attempt fuel : Nat) (st : GRPCClient)
    (lastErr : Option CallError) (h : hasHealthyB st name = true)
    (ho : outcomes attempt = .ok) :
    (callServiceLoop lb rp outcomes d name retries attempt (fuel + 1) st
        lastErr).result = .ok
    ∧ (callServiceLoop lb rp outcomes d name retries attempt (fuel + 1) st
        lastErr).attempts = 1
    ∧ (callServiceLoop lb rp outcomes d name retries attempt (fuel + 1) st
        lastErr).delays = [] := by
  have hres : (attemptStep lb rp (outcomes attempt) name attempt st).res
      = .success := by
    rw [attemptStep_res lb rp (outcomes attempt) name attempt st h, ho]
    rfl
  simp [callServiceLoop, hres]

theorem loop_timeout (lb : String) (rp : Nat) (outcomes : Nat → CallOutcome)
    (d : ℚ) (name : String) (retries attempt fuel : Nat) (st : GRPCClient)
    (lastErr : Option CallError) (h : hasHealthyB st name = true)
    (ho : outcomes attempt = .timeoutErr) :
    (callServiceLoop lb rp outcomes d name retries attempt (fuel + 1) st
        lastErr).result = .err (.timeout attempt)
    ∧ (callServiceLoop lb rp outcomes d name retries attempt (fuel + 1) st
        lastErr).attempts = 1
    ∧ (callServiceLoop lb rp outcomes d name retries attempt (fuel + 1) st
        lastErr).delays = [] := by
  have hres : (attemptStep lb rp (outcomes attempt) name attempt st).res
      = .terminal (.timeout attempt) := by
    rw [attemptStep_res lb rp (outcomes attempt) name attempt st h, ho]
    rfl
  simp [callServiceLoop, hres]

theorem loop_app (lb : String) (rp : Nat) (outcomes : Nat → CallOutcome)
    (d : ℚ) (name : String) (retries attempt fuel : Nat) (st : GRPCClient)
    (lastErr : Option CallError) (h : hasHealthyB st name = true)
    (ho : outcomes attempt = .otherErr) :
    (callServiceLoop lb rp outcomes d name retries attempt (fuel + 1) st
        lastErr).result = .err (.app attempt)
    ∧ (callServiceLoop lb rp outcomes d name retries attempt (fuel + 1) st
        lastErr).attempts = 1
    ∧ (callServiceLoop lb rp outcomes d name retries attempt (fuel + 1) st
        lastErr).delays = [] := by
  have hres : (attemptStep lb rp (outcomes attempt) name attempt st).res
      = .terminal (.app attempt) := by
    rw [attemptStep_res lb rp (outcomes attempt) name attempt st h, ho]
    rfl
  simp [callServiceLoop, hres]

theorem loop_transient (lb : String) (rp : Nat)
    (outcomes : Nat → CallOutcome) (d : ℚ) (name : String)
    (retries attempt fuel : Nat) (st : GRPCClient)
    (lastErr : Option CallError) (h : hasHealthyB st name = true)
    (ho : outcomes attempt = .grpcErr) :
    (callServiceLoop lb rp outcomes d name retries attempt (fuel + 1) st
        lastErr).result
      = (callServiceLoop lb rp outcomes d name retries (attempt + 1) fuel
          (attemptStep lb rp (outcomes attempt) name attempt st).st
          (some (.grpc attempt))).result
    ∧ (callServiceLoop lb rp outcomes d name retries attempt (fuel + 1) st
        lastErr).attempts
      = (callServiceLoop lb rp outcomes d name retries (attempt + 1) fuel
          (attemptStep lb rp (outcomes attempt) name attempt st).st
          (some (.grpc attempt))).attempts + 1
    ∧ (callServiceLoop lb rp outcomes d name retries attempt (fuel + 1) st
        lastErr).delays
      = (if attempt < retries then [d * 2 ^ attempt] else [])
        ++ (callServiceLoop lb rp outcomes d name retries (attempt + 1) fuel
            (attemptStep lb rp (outcomes attempt) name attempt st).st
            (some (.grpc attempt))).delays := by
  have hres : (attemptStep lb rp (outcomes attempt) name attempt st).res
      = .transient (.grpc attempt) := by
    rw [attemptStep_res lb rp (outcomes attempt) name attempt st h, ho]
    rfl
  simp [callServiceLoop, hres]

theorem loop_lastErr_irrel (lb : String) (rp : Nat)
    (outcomes : Nat → CallOutcome) (d : ℚ) (name : String)
    (retries attempt fuel : Nat) (st : GRPCClient)
    (l₁ l₂ : Option CallError) :
    callServiceLoop lb rp outcomes d name retries attempt (fuel + 1) st l₁
      = callServiceLoop lb rp outcomes d name retries attempt (fuel + 1) st
          l₂ := by
  simp only [callServiceLoop]

theorem loop_run_transient (lb : String) (rp : Nat)
    (outcomes : Nat → CallOutcome) (d : ℚ) (name : String) (retries : Nat) :
    ∀ (k attempt : Nat) (st : GRPCClient) (lastErr : Option CallError),
      hasHealthyB st name = true →
      (∀ i, i < k → outcomes (attempt + i) = .grpcErr) →
      attempt + k ≤ retries →
      ∃ st₂, st₂.services = st.services
        ∧ (callServiceLoop lb rp outcomes d name retries attempt
              (retries + 1 - attempt) st lastErr).result
          = (callServiceLoop lb rp outcomes d name retries (attempt + k)
              (retries + 1 - (attempt + k)) st₂ none).result
        ∧ (callServiceLoop lb rp outcomes d name retries attempt
              (retries + 1 - attempt) st lastErr).attempts
          = (callServiceLoop lb rp outcomes d name retries (attempt + k)
              (retries + 1 - (attempt + k)) st₂ none).attempts + k
        ∧ (callServiceLoop lb rp outcomes d name retries attempt
              (retries + 1 - attempt) st lastErr).delays
          = ((List.range k).map (fun i => d * 2 ^ (attempt + i)))
            ++ (callServiceLoop lb rp outcomes d name retries (attempt + k)
                (retries + 1 - (attempt + k)) st₂ none).delays := by
  intro k
  induction k with
  | zero =>
    intro attempt st lastErr h hk hak
    have hf : retries + 1 - attempt = (retries - attempt) + 1 := by omega
    refine ⟨st, rfl, ?_, ?_, ?_⟩ <;>
      simp only [Nat.add_zero, hf,
        loop_lastErr_irrel lb rp outcomes d name retries attempt
          (retries - attempt) st lastErr none] <;>
      simp
  | succ k ih =>
    intro attempt st lastErr h hk hak
    have h0 : outcomes attempt = .grpcErr := by
      have := hk 0 (by omega)
      simpa using this
    have hf : retries + 1 - attempt = (retries - attempt) + 1 := by omega
    rw [hf]
    obtain ⟨hr, ha, hd⟩ := loop_transient lb rp outcomes d name retries
      attempt (retries - attempt) st lastErr h h0
    have hserv : (attemptStep lb rp (outcomes attempt) name attempt
        st).st.services = st.services :=
      attemptStep_services lb rp (outcomes attempt) name attempt st
    have hH : hasHealthyB
        (attemptStep lb rp (outcomes attempt) name attempt st).st name
          = true := by
      rw [hasHealthyB_congr name hserv]; exact h
    have hfuel : retries - attempt = retries + 1 - (attempt + 1) := by omega
    obtain ⟨st₂, hs₂, hr₂, ha₂, hd₂⟩ := ih (attempt + 1)
      (attemptStep lb rp (outcomes attempt) name attempt st).st
      (some (.grpc attempt)) hH
      (fun i hi => by
        have := hk (i + 1) (by omega)
        rwa [show attempt + (i + 1) = attempt + 1 + i by omega] at this)
      (by omega)
    have hidx : attempt + 1 + k = attempt + (k + 1) := by omega
    rw [hidx, ← hfuel] at hr₂ ha₂ hd₂
    refine ⟨st₂, by rw [hs₂, hserv], ?_, ?_, ?_⟩
    · rw [hr, hr₂]
    · rw [ha, ha₂]
      omega
    · rw [hd, hd₂, if_pos (by omega : attempt < retries)]
      have harg : ∀ i : Nat, attempt + 1 + i = attempt + (i + 1) :=
        fun i => by omega
      simp [List.range_succ_eq_map, Function.comp, harg]

theorem loop_exhaust (lb : String) (rp : Nat)
    (outcomes : Nat → CallOutcome) (d : ℚ) (name : String) (retries : Nat)
    (st : GRPCClient) (lastErr : Option CallError)
    (h : hasHealthyB st name = true) (ho : outcomes retries = .grpcErr) :
    (callServiceLoop lb rp outcomes d name retries retries 1 st
        lastErr).result = .err (.grpc retries)
    ∧ (callServiceLoop lb rp outcomes d name retries retries 1 st
        lastErr).attempts = 1
    ∧ (callServiceLoop lb rp outcomes d name retries retries 1 st
        lastErr).delays = [] := by
  obtain ⟨hr, ha, hd⟩ := loop_transient lb rp outcomes d name retries retries
    0 st lastErr h ho
  refine ⟨?_, ?_, ?_⟩
  · rw [hr]; simp [callServiceLoop]
  · rw [ha]; simp [callServiceLoop]
  · rw [hd]; simp [callServiceLoop]

/-- C4: inside `call_service`, each transient (`GRPCError`) failure with
attempts remaining is followed by a sleep of exactly
`retry_delay * 2 ^ attemptIndex` (attemptIndex starting at 0) before the
next attempt re-selects an instance; with a backend that fails
transiently on the first `k ≤ retries` attempts and then succeeds, the
call succeeds, exactly `k + 1` attempts are made, and the recorded delays
are `d * 2 ^ 0, ..., d * 2 ^ (k - 1)` — for the claim's instance
`retries = 3`, `k = 2`: three attempts with delays `d, d * 2`. -/
theorem C4_backoff (lb : String) (rp : Nat) (outcomes : Nat → CallOutcome)
    (d : ℚ) (st : GRPCClient) (name : String) (retries k : Nat)
    (h : hasHealthyB st name = true)
    (hfail : ∀ i, i < k → outcomes i = .grpcErr)
    (hok : outcomes k = .ok) (hk : k ≤ retries) :
    (call_service lb rp outcomes d st name retries).result = .ok
    ∧ (call_service lb rp outcomes d st name retries).attempts = k + 1
    ∧ (call_service lb rp outcomes d st name retries).delays
      = (List.range k).map (fun i => d * 2 ^ i) := by
  obtain ⟨st₂, hs₂, hr, ha, hd⟩ := loop_run_transient lb rp outcomes d name
    retries k 0 st none h (fun i hi => by simpa using hfail i hi) (by omega)
  simp only [Nat.zero_add, Nat.sub_zero] at hr ha hd
  have hf : retries + 1 - k = (retries - k) + 1 := by omega
  rw [hf] at hr ha hd
  have hH₂ : hasHealthyB st₂ name = true := by
    rw [hasHealthyB_congr name hs₂]; exact h
  obtain ⟨hr₃, ha₃, hd₃⟩ := loop_ok lb rp outcomes d name retries k
    (retries - k) st₂ none hH₂ hok
  unfold call_service
  refine ⟨?_, ?_, ?_⟩
  · rw [hr, hr₃]
  · rw [ha, ha₃]
    omega
  · rw [hd, hd₃]
    simp

theorem C4_backoff_witness :
    (call_service "round-robin" 0
        (fun i => if i < 2 then CallOutcome.grpcErr else CallOutcome.ok) 1
        (mkClient "a" [{ host := "a-1", port := 1 }] 0 []) "a" 3).result
      = CallResult.ok
    ∧ (call_service "round-robin" 0
        (fun i => if i < 2 then CallOutcome.grpcErr else CallOutcome.ok) 1
        (mkClient "a" [{ host := "a-1", port := 1 }] 0 []) "a" 3).attempts
      = 3
    ∧ (call_service "round-robin" 0
        (fun i => if i < 2 then CallOutcome.grpcErr else CallOutcome.ok) 1
        (mkClient "a" [{ host := "a-1", port := 1 }] 0 []) "a" 3).delays
      = (List.range 2).map (fun i => (1 : ℚ) * 2 ^ i) :=
  C4_backoff "round-robin" 0
    (fun i => if i < 2 then CallOutcome.grpcErr else CallOutcome.ok) 1
    (mkClient "a" [{ host := "a-1", port := 1 }] 0 []) "a" 3 2
    (by decide) (by decide) (by decide) (by decide)

/-- C5: `call_service` retries only the transient (`GRPCError`) class.
When the registry has no healthy instance for the service, the very first
iteration raises and the generic except-branch breaks the loop: the error
propagates after a single attempt with no sleep and no state change.
When the backend reports a non-network application-level failure after
`k` transient failures, the loop breaks at attempt `k` and propagates it
with no further attempts.  When every attempt fails transiently, the loop
exhausts its `retries + 1` iterations and propagates the last observed
error, the `GRPCError` of the final attempt. -/
theorem C5_retry_only_transient (lb : String) (rp : Nat)
    (outcomes : Nat → CallOutcome) (d : ℚ) (st : GRPCClient) (name : String)
    (retries k : Nat) :
    (hasHealthyB st name = false →
      call_service lb rp outcomes d st name retries
        = ⟨.err (.noHealthy name), st, 1, [], [st]⟩)
    ∧ (hasHealthyB st name = true →
        (∀ i, i < k → outcomes i = .grpcErr) →
        outcomes k = .otherErr → k ≤ retries →
        (call_service lb rp outcomes d st name retries).result
            = .err (.app k)
        ∧ (call_service lb rp outcomes d st name retries).attempts = k + 1
        ∧ (call_service lb rp outcomes d st name retries).delays
          = (List.range k).map (fun i => d * 2 ^ i))
    ∧ (hasHealthyB st name = true →
        (∀ i, i ≤ retries → outcomes i = .grpcErr) →
        (call_service lb rp outcomes d st name retries).result
            = .err (.grpc retries)
        ∧ (call_service lb rp outcomes d st name retries).attempts
          = retries + 1
        ∧ (call_service lb rp outcomes d st name retries).delays
          = (List.range retries).map (fun i => d * 2 ^ i)) := by
  refine ⟨?_, ?_, ?_⟩
  · intro h
    unfold call_service
    exact loop_noH lb rp outcomes d name retries 0 retries st none h
  · intro h hfail happ hk
    obtain ⟨st₂, hs₂, hr, ha, hd⟩ := loop_run_transient lb rp outcomes d
      name retries k 0 st none h (fun i hi => by simpa using hfail i hi)
      (by omega)
    simp only [Nat.zero_add, Nat.sub_zero] at hr ha hd
    have hf : retries + 1 - k = (retries - k) + 1 := by omega
    rw [hf] at hr ha hd
    have hH₂ : hasHealthyB st₂ name = true := by
      rw [hasHealthyB_congr name hs₂]; exact h
    obtain ⟨hr₃, ha₃, hd₃⟩ := loop_app lb rp outcomes d name retries k
      (retries - k) st₂ none hH₂ happ
    unfold call_service
    refine ⟨?_, ?_, ?_⟩
    · rw [hr, hr₃]
    · rw [ha, ha₃]
      omega
    · rw [hd, hd₃]
      simp
  · intro h hfail
    obtain ⟨st₂, hs₂, hr, ha, hd⟩ := loop_run_transient lb rp outcomes d
      name retries retries 0 st none h
      (fun i hi => by simpa using hfail i (by omega)) (by omega)
    simp only [Nat.zero_add, Nat.sub_zero] at hr ha hd
    have hf : retries + 1 - retries = 1 := by omega
    rw [hf] at hr ha hd
    have hH₂ : hasHealthyB st₂ name = true := by
      rw [hasHealthyB_congr name hs₂]; exact h
    obtain ⟨hr₃, ha₃, hd₃⟩ := loop_exhaust lb rp outcomes d name retries st₂
      none hH₂ (hfail retries (by omega))
    unfold call_service
    refine ⟨?_, ?_, ?_⟩
    · rw [hr, hr₃]
    · rw [ha, ha₃]
      omega
    · rw [hd, hd₃]
      simp

theorem C5_retry_only_transient_witness :
    call_service "round-robin" 0 (fun _ => CallOutcome.grpcErr) 1
        emptyClient "a" 3
      = ⟨.err (.noHealthy "a"), emptyClient, 1, [], [emptyClient]⟩
    ∧ (call_service "round-robin" 0
        (fun i => if i < 1 then CallOutcome.grpcErr else CallOutcome.otherErr)
        1 (mkClient "a" [{ host := "a-1", port := 1 }] 0 []) "a" 3).result
      = CallResult.err (CallError.app 1)
    ∧ (call_service "round-robin" 0 (fun _ => CallOutcome.grpcErr) 1
        (mkClient "a" [{ host := "a-1", port := 1 }] 0 []) "a" 3).result
      = CallResult.err (CallError.grpc 3) :=
  ⟨(C5_retry_only_transient "round-robin" 0 (fun _ => CallOutcome.grpcErr) 1
      emptyClient "a" 3 0).1 (by decide),
   ((C5_retry_only_transient "round-robin" 0
      (fun i => if i < 1 then CallOutcome.grpcErr else CallOutcome.otherErr)
      1 (mkClient "a" [{ host := "a-1", port := 1 }] 0 []) "a" 3 1).2.1
      (by decide) (by decide) (by decide) (by decide)).1,
   ((C5_retry_only_transient "round-robin" 0 (fun _ => CallOutcome.grpcErr) 1
      (mkClient "a" [{ host := "a-1", port := 1 }] 0 []) "a" 3 0).2.2
      (by decide) (fun i _ => rfl)).1⟩

/-- C6 counterexample: with a single healthy instance and a backend whose
call times out (raises `asyncio.TimeoutError`) on every attempt, and a
retry budget of 3, `call_service` stops after exactly one attempt with no
backoff sleep and propagates the timeout — the timed-out attempt is NOT
treated as a transient failure eligible for retry, contradicting the
claim. -/
theorem C6_timeout_counterexample :
    (call_service "round-robin" 0 (fun _ => CallOutcome.timeoutErr) 1
        (mkClient "a" [{ host := "a-1", port := 1 }] 0 []) "a" 3).result
      = CallResult.err (CallError.timeout 0)
    ∧ (call_service "round-robin" 0 (fun _ => CallOutcome.timeoutErr) 1
        (mkClient "a" [{ host := "a-1", port := 1 }] 0 []) "a" 3).attempts
      = 1
    ∧ (call_service "round-robin" 0 (fun _ => CallOutcome.timeoutErr) 1
        (mkClient "a" [{ host := "a-1", port := 1 }] 0 []) "a" 3).delays
      = [] := by
  refine ⟨?_, ?_, ?_⟩ <;> decide

/-- C6 (amended): `call_service` imposes no per-attempt timeout of its
own, and a timed-out backend call (`asyncio.TimeoutError`, which is not a
`GRPCError`) is caught by the generic except-branch and terminates the
retry loop immediately: after `k` transient failures, a timeout on
attempt `k` is propagated with exactly `k + 1` attempts made and no
further backoff sleep — it is a terminal error, not a retryable transient
one. -/
theorem C6_timeout_terminal (lb : String) (rp : Nat)
    (outcomes : Nat → CallOutcome) (d : ℚ) (st : GRPCClient) (name : String)
    (retries k : Nat) (h : hasHealthyB st name = true)
    (hfail : ∀ i, i < k → outcomes i = .grpcErr)
    (hto : outcomes k = .timeoutErr) (hk : k ≤ retries) :
    (call_service lb rp outcomes d st name retries).result
        = .err (.timeout k)
    ∧ (call_service lb rp outcomes d st name retries).attempts = k + 1
    ∧ (call_service lb rp outcomes d st name retries).delays
      = (List.range k).map (fun i => d * 2 ^ i) := by
  obtain ⟨st₂, hs₂, hr, ha, hd⟩ := loop_run_transient lb rp outcomes d name
    retries k 0 st none h (fun i hi => by simpa using hfail i hi) (by omega)
  simp only [Nat.zero_add, Nat.sub_zero] at hr ha hd
  have hf : retries + 1 - k = (retries - k) + 1 := by omega
  rw [hf] at hr ha hd
  have hH₂ : hasHealthyB st₂ name = true := by
    rw [hasHealthyB_congr name hs₂]; exact h
  obtain ⟨hr₃, ha₃, hd₃⟩ := loop_timeout lb rp outcomes d name retries k
    (retries - k) st₂ none hH₂ hto
  unfold call_service
  refine ⟨?_, ?_, ?_⟩
  · rw [hr, hr₃]
  · rw [ha, ha₃]
    omega
  · rw [hd, hd₃]
    simp

theorem C6_timeout_terminal_witness :
    (call_service "round-robin" 0
        (fun i => if i < 1 then CallOutcome.grpcErr else CallOutcome.timeoutErr)
        1 (mkClient "a" [{ host := "a-1", port := 1 }] 0 []) "a" 3).result
      = CallResult.err (CallError.timeout 1)
    ∧ (call_service "round-robin" 0
        (fun i => if i < 1 then CallOutcome.grpcErr else CallOutcome.timeoutErr)
        1 (mkClient "a" [{ host := "a-1", port := 1 }] 0 []) "a" 3).attempts
      = 2 :=
  ⟨(C6_timeout_terminal "round-robin" 0
      (fun i => if i < 1 then CallOutcome.grpcErr else CallOutcome.timeoutErr)
      1 (mkClient "a" [{ host := "a-1", port := 1 }] 0 []) "a" 3 1
      (by decide) (by decide) (by decide) (by decide)).1,
   (C6_timeout_terminal "round-robin" 0
      (fun i => if i < 1 then CallOutcome.grpcErr else CallOutcome.timeoutErr)
      1 (mkClient "a" [{ host := "a-1", port := 1 }] 0 []) "a" 3 1
      (by decide) (by decide) (by decide) (by decide)).2.1⟩

/-! ### Dispatcher properties -/

/-- C7: a message whose type tag has no registered handler is answered
with a response carrying `success = false` and an error field; the
iteration stays in the receive loop, so the connection is not closed and
subsequent events of the same client are still consumed and processed. -/
theorem C7_unknown_tag_keeps_connection (table : List (String × Handler))
    (fresh cid : String) (data : WSMessage) (t : String)
    (mgr : List String) (rest : List LoopEvent)
    (ht : data.type? = some t) (hh : lookupA t table = none) :
    (_process_message table fresh data).success = false
    ∧ ((_process_message table fresh data).error?).isSome
    ∧ loopStep table fresh (.msg data)
      = .stay [.response (_process_message table fresh data)]
    ∧ runLoop table fresh cid mgr (.msg data :: rest)
      = ⟨.response (_process_message table fresh data)
            :: (runLoop table fresh cid mgr rest).sent,
         (runLoop table fresh cid mgr rest).manager,
         (runLoop table fresh cid mgr rest).stillOpen⟩ := by
  have hp : _process_message table fresh data
      = { type := "error", request_id := (data.request_id?).getD fresh,
          error? := some ("Unknown message type: " ++ t),
          success := false } := by
    simp [_process_message, ht, hh]
  exact ⟨by rw [hp], by rw [hp]; simp, rfl, rfl⟩

theorem C7_unknown_tag_keeps_connection_witness :
    (_process_message message_handlers "gen-1"
        { type? := some "unknown_x" }).success = false
    ∧ ((_process_message message_handlers "gen-1"
        { type? := some "unknown_x" }).error?).isSome
    ∧ runLoop message_handlers "gen-1" "client-9" ["client-9"]
        [.msg { type? := some "unknown_x" }]
      = ⟨[.response (_process_message message_handlers "gen-1"
            { type? := some "unknown_x" })], ["client-9"], true⟩ :=
  ⟨(C7_unknown_tag_keeps_connection message_handlers "gen-1" "client-9"
      { type? := some "unknown_x" } "unknown_x" ["client-9"] [] rfl
      rfl).1,
   (C7_unknown_tag_keeps_connection message_handlers "gen-1" "client-9"
      { type? := some "unknown_x" } "unknown_x" ["client-9"] [] rfl
      rfl).2.1,
   (C7_unknown_tag_keeps_connection message_handlers "gen-1" "client-9"
      { type? := some "unknown_x" } "unknown_x" ["client-9"] [] rfl
      rfl).2.2.2⟩

/-- C8 counterexample: the dispatcher's failure responses do not carry
`type = "<original_type>_response"`.  For the message type "unknown_x"
the response has `type = "error"`, not "unknown_x_response", refuting the
claim that every processed message's response (success or failure alike)
carries the original type suffixed with "_response". -/
theorem C8_response_type_counterexample :
    (_process_message message_handlers "gen-1"
        { type? := some "unknown_x", request_id? := some "req-7" }).type
      = "error"
    ∧ (_process_message message_handlers "gen-1"
        { type? := some "unknown_x", request_id? := some "req-7" }).success
      = false
    ∧ (_process_message message_handlers "gen-1"
        { type? := some "unknown_x", request_id? := some "req-7" }).type
      ≠ "unknown_x" ++ "_response" :=
  ⟨rfl, rfl, by decide⟩

/-- C8 (amended): every response echoes the caller-supplied request id
(or the generated one) and carries a `success` boolean.  A successful
dispatch responds with `type = t ++ "_response"` for the original type
`t`, `success = true`, a data field and no error field; a failed dispatch
(unknown/missing type tag, or a handler raising) responds with
`type = "error"`, `success = false`, an error field and no data field. -/
theorem C8_response_shape (table : List (String × Handler)) (fresh : String)
    (data : WSMessage) :
    (_process_message table fresh data).request_id
        = (data.request_id?).getD fresh
    ∧ (((_process_message table fresh data).success = true
        ∧ (∃ t, data.type? = some t
            ∧ (_process_message table fresh data).type = t ++ "_response")
        ∧ ((_process_message table fresh data).data?).isSome
        ∧ (_process_message table fresh data).error? = none)
      ∨ ((_process_message table fresh data).success = false
        ∧ (_process_message table fresh data).type = "error"
        ∧ (_process_message table fresh data).data? = none
        ∧ ((_process_message table fresh data).error?).isSome)) := by
  rcases ht : data.type? with _ | t
  · simp [_process_message, ht]
  · rcases hh : lookupA t table with _ | hdl
    · simp [_process_message, ht, hh]
    · rcases hr : hdl data with e | v
      · simp [_process_message, ht, hh, hr]
      · simp [_process_message, ht, hh, hr]

/-- C9: a connection silent past the inactivity timeout is sent a
message of type "ping".  A reply whose type field is "pong" keeps the
loop running and the connection tracked; a reply with any other type, or
no reply within the secondary timeout, breaks the loop, after which the
`finally` block removes the client from the Connection Manager. -/
theorem C9_ping_liveness (table : List (String × Handler))
    (fresh cid : String) (mgr : List String) (reply : WSMessage)
    (rest : List LoopEvent) :
    (reply.type? = some "pong" →
      loopStep table fresh (.inactivity (some reply)) = .stay [.ping]
      ∧ runLoop table fresh cid mgr (.inactivity (some reply) :: rest)
        = ⟨.ping :: (runLoop table fresh cid mgr rest).sent,
           (runLoop table fresh cid mgr rest).manager,
           (runLoop table fresh cid mgr rest).stillOpen⟩)
    ∧ (reply.type? ≠ some "pong" →
      loopStep table fresh (.inactivity (some reply)) = .leave [.ping]
      ∧ runLoop table fresh cid mgr (.inactivity (some reply) :: rest)
        = ⟨[.ping], disconnect mgr cid, false⟩
      ∧ cid ∉ disconnect mgr cid)
    ∧ (loopStep table fresh (.inactivity none) = .leave [.ping]
      ∧ runLoop table fresh cid mgr (.inactivity none :: rest)
        = ⟨[.ping], disconnect mgr cid, false⟩
      ∧ cid ∉ disconnect mgr cid) := by
  have hnot : cid ∉ disconnect mgr cid := by
    intro hmem
    rcases List.mem_filter.mp hmem with ⟨_, hp⟩
    simp at hp
  refine ⟨?_, ?_, rfl, rfl, hnot⟩
  · intro hp
    have hstep : loopStep table fresh (.inactivity (some reply))
        = .stay [.ping] := by
      simp [loopStep, hp]
    exact ⟨hstep, by simp [runLoop, hstep]⟩
  · intro hp
    have hstep : loopStep table fresh (.inactivity (some reply))
        = .leave [.ping] := by
      simp [loopStep, hp]
    exact ⟨hstep, by simp [runLoop, hstep], hnot⟩

theorem C9_ping_liveness_witness :
    (loopStep message_handlers "gen-1"
        (.inactivity (some { type? := some "pong" })) = .stay [.ping]
      ∧ runLoop message_handlers "gen-1" "c1" ["c1"]
          [.inactivity (some { type? := some "pong" })]
        = ⟨[.ping], ["c1"], true⟩)
    ∧ (runLoop message_handlers "gen-1" "c1" ["c1"]
          [.inactivity (some { type? := some "chat_message" })]
        = ⟨[.ping], disconnect ["c1"] "c1", false⟩
      ∧ "c1" ∉ disconnect ["c1"] "c1")
    ∧ runLoop message_handlers "gen-1" "c1" ["c1"] [.inactivity none]
        = ⟨[.ping], disconnect ["c1"] "c1", false⟩ := by
  refine ⟨?_, ?_, ?_⟩
  · have h := (C9_ping_liveness message_handlers "gen-1" "c1" ["c1"]
      { type? := some "pong" } []).1 rfl
    exact ⟨h.1, h.2⟩
  · have h := (C9_ping_liveness message_handlers "gen-1" "c1" ["c1"]
      { type? := some "chat_message" } []).2.1 (by decide)
    exact ⟨h.2.1, h.2.2⟩
  · exact ((C9_ping_liveness message_handlers "gen-1" "c1" ["c1"]
      { type? := some "pong" } []).2.2).2.1

/-- C10: when an inbound message carries no request_id field, the
dispatcher substitutes the freshly generated uuid4 string, so whichever
response is sent — the success response or the error response — carries
exactly that generated identifier, which is non-empty because uuid4
strings are non-empty. -/
theorem C10_generated_request_id (table : List (String × Handler))
    (fresh : String) (data : WSMessage) (hnone : data.request_id? = none)
    (hfresh : fresh ≠ "") :
    (_process_message table fresh data).request_id = fresh
    ∧ (_process_message table fresh data).request_id ≠ "" := by
  have hmain : (_process_message table fresh data).request_id = fresh := by
    rcases ht : data.type? with _ | t
    · simp [_process_message, ht, hnone]
    · rcases hh : lookupA t table with _ | hdl
      · simp [_process_message, ht, hh, hnone]
      · rcases hr : hdl data with e | v
        · simp [_process_message, ht, hh, hr, hnone]
        · simp [_process_message, ht, hh, hr, hnone]
  exact ⟨hmain, by rw [hmain]; exact hfresh⟩

theorem C10_generated_request_id_witness :
    (_process_message message_handlers
        "a4c1f0d2-9f6e-4b31-8c77-0c2b9a61e555"
        { type? := some "auth" }).request_id
      = "a4c1f0d2-9f6e-4b31-8c77-0c2b9a61e555"
    ∧ (_process_message message_handlers
        "a4c1f0d2-9f6e-4b31-8c77-0c2b9a61e555"
        { type? := some "error_case" }).request_id ≠ "" :=
  ⟨(C10_generated_request_id message_handlers
      "a4c1f0d2-9f6e-4b31-8c77-0c2b9a61e555" { type? := some "auth" } rfl
      (by decide)).1,
   (C10_generated_request_id message_handlers
      "a4c1f0d2-9f6e-4b31-8c77-0c2b9a61e555" { type? := some "error_case" }
      rfl (by decide)).2⟩
